import Mathlib

/-
Verification of the Blog-Generator pipeline's resilience machinery.

The Python source (app/core/blog_generator.py, content_extractor.py,
url_validator.py, config.py) is embedded shallowly over `List Char`
(one entry per Unicode code point, matching Python's `str` indexing).
External libraries are embedded at their interfaces:
  * `json.loads` (the "strict parse") is a parameter `loads` of the
    recovery cascade; a small executable strict parser `miniLoads` is used
    to instantiate it on concrete witnesses;
  * the tenacity retry decorator on `BlogGenerator._call_gemini` is
    embedded by `retryExec` / `wait_exponential`, following tenacity's
    documented semantics with the decorator arguments from the source
    (stop_after_attempt 3, wait_exponential multiplier 1 min 2 max 10,
    reraise);
  * network calls (Gemini, newspaper3k, BeautifulSoup, requests) are
    parameters recording what each call would yield.
-/

namespace BlogGen

/-! ### Character constants (written via code points to keep sources literal) -/

def lbrace : Char := Char.ofNat 123

def rbrace : Char := Char.ofNat 125

def lbracketC : Char := Char.ofNat 91

def rbracketC : Char := Char.ofNat 93

def dquote : Char := Char.ofNat 34

def squote : Char := Char.ofNat 39

def bslash : Char := Char.ofNat 92

def btick : Char := Char.ofNat 96

def nlChar : Char := Char.ofNat 10

def commaChar : Char := ','

def colonChar : Char := ':'

/-- Left typographic double quote. -/
def ldq : Char := Char.ofNat 0x201C

/-- Right typographic double quote. -/
def rdq : Char := Char.ofNat 0x201D

/-- Left typographic single quote. -/
def lsq : Char := Char.ofNat 0x2018

/-- Right typographic single quote. -/
def rsq : Char := Char.ofNat 0x2019

/-! ### Generic sequence helpers (Python `str` operations over `List Char`) -/

/-- `isStartOf sep l = true` iff `sep` is an initial segment of `l`
(Python `l.startswith(sep)`). -/
def isStartOf : List Char → List Char → Bool
  | [], _ => true
  | _ :: _, [] => false
  | a :: s, b :: t => if a = b then isStartOf s t else false

/-- Split `l` at the first occurrence of `sep` (Python `l.split(sep, 1)`
when `sep` occurs): returns the text before and after that occurrence,
`none` when `sep` does not occur. -/
def splitFirst (sep : List Char) : List Char → Option (List Char × List Char)
  | [] => none
  | c :: rest =>
    if isStartOf sep (c :: rest) then some ([], (c :: rest).drop sep.length)
    else
      match splitFirst sep rest with
      | some (pre, post) => some (c :: pre, post)
      | none => none

/-- Python `sep in l` (substring membership). -/
def containsSeq (sep l : List Char) : Bool := (splitFirst sep l).isSome

/-- Index of the first occurrence of character `t` (Python `l.find(t)`,
with `none` for `-1`). -/
def findCharIdx (t : Char) : List Char → Option Nat
  | [] => none
  | c :: rest => if c = t then some 0 else (findCharIdx t rest).map (· + 1)

/-- Index of the last occurrence of character `t` (Python `l.rfind(t)`,
with `none` for `-1`). -/
def rfindCharIdx (t : Char) (s : List Char) : Option Nat :=
  match findCharIdx t s.reverse with
  | some i => some (s.length - 1 - i)
  | none => none

/-- Python whitespace stripped by `str.strip()` (ASCII part). -/
def isPySpace (c : Char) : Bool :=
  c == ' ' || c == Char.ofNat 9 || c == nlChar || c == Char.ofNat 13 ||
    c == Char.ofNat 11 || c == Char.ofNat 12

/-- Python `str.strip()`. -/
def pyStrip (s : List Char) : List Char :=
  ((s.dropWhile isPySpace).reverse.dropWhile isPySpace).reverse

/-- Python `str.lower()` (ASCII case folding, which is all the validator's
excluded-domain comparison needs). -/
def toLowerL (s : List Char) : List Char := s.map Char.toLower

/-! ### `BlogGenerator.parse_json_response` (blog_generator.py lines 70-149) -/

/-- The literal sequence the source writes as three backticks followed by
the format label (start of a labeled fenced block). -/
def fenceJson : List Char := [btick, btick, btick, 'j', 's', 'o', 'n']

/-- The bare three-backtick fence delimiter. -/
def fence3 : List Char := [btick, btick, btick]

/-- Markdown-fence stripping applied first by `parse_json_response`
(lines 88-99): if the labeled fence marker occurs, keep the text between
it and the next bare fence marker; else if a bare fence marker occurs,
keep the first fenced block's interior; else keep the text unchanged. -/
def stripFences (response : List Char) : List Char :=
  match splitFirst fenceJson response with
  | some (_, post) =>
    match splitFirst fence3 post with
    | some (pre, _) => pre
    | none => post
  | none =>
    match splitFirst fence3 response with
    | some (_, post) =>
      match splitFirst fence3 post with
      | some (pre, _) => pre
      | none => post
    | none => response

/-- `raw` in the source: the fence-stripped, whitespace-stripped response
(line 101). -/
def fenceStripped (response : List Char) : List Char := pyStrip (stripFences response)

/-- Attempt 2 (lines 108-115): substring from the first opening brace to
the last closing brace, strictly parsed, attempted only when both exist
and the latter strictly follows the former. -/
def attempt2 {J : Type} (loads : List Char → Option J) (raw : List Char) : Option J :=
  match findCharIdx lbrace raw, rfindCharIdx rbrace raw with
  | some first_brace, some last_brace =>
    if first_brace < last_brace then
      loads ((raw.drop first_brace).take (last_brace + 1 - first_brace))
    else none
  | some _, none => none
  | none, _ => none

/-- Replacement of typographic quotes by straight quotes (lines 120-121). -/
def mapSmartQuotes (s : List Char) : List Char :=
  s.map fun c =>
    if c = ldq ∨ c = rdq then dquote
    else if c = lsq ∨ c = rsq then squote
    else c

/-- Removal of the characters matched by the source's control-character
pattern (line 124): code points 0x00-0x1f and 0x7f.  Note the pattern
includes 0x0a, so newlines are removed even though the adjacent source
comment says "except newline". -/
def stripControl (s : List Char) : List Char :=
  s.filter fun c => !(c.toNat < 32 || c.toNat == 127)

/-- Characters matched by the pattern's whitespace class (ASCII part). -/
def isRegexSpace (c : Char) : Bool :=
  c == ' ' || c == Char.ofNat 9 || c == nlChar || c == Char.ofNat 13 ||
    c == Char.ofNat 11 || c == Char.ofNat 12

def removeTrailingCommasGo : Nat → List Char → List Char
  | 0, s => s
  | _ + 1, [] => []
  | fuel + 1, c :: rest =>
    if c = commaChar then
      match rest.dropWhile isRegexSpace with
      | b :: r2 =>
        if b = rbrace ∨ b = rbracketC then b :: removeTrailingCommasGo fuel r2
        else c :: removeTrailingCommasGo fuel rest
      | [] => c :: rest
    else c :: removeTrailingCommasGo fuel rest

/-- Removal of any comma followed by optional whitespace and a closing
brace or bracket (line 127, the trailing-comma substitution): the comma
and interleaved whitespace are dropped, the closing delimiter kept.
Structured with explicit fuel (initially the length, which bounds the
number of steps) so the definition is structurally recursive. -/
def removeTrailingCommas (s : List Char) : List Char :=
  removeTrailingCommasGo s.length s

/-- Attempt 3's normalized text (`cleaned`, lines 117-127). -/
def attempt3text (raw : List Char) : List Char :=
  removeTrailingCommas (stripControl (mapSmartQuotes raw))

/-- The body of attempt 4's scan at one index `e` (lines 137-144): when the
character there is a closing brace and the candidate slice from the first
opening brace has balanced brace counts, strictly parse the candidate. -/
def scanStep {J : Type} (loads : List Char → Option J) (raw : List Char)
    (first_brace e : Nat) : Option J :=
  if raw.get? e = some rbrace then
    if ((raw.drop first_brace).take (e + 1 - first_brace)).count lbrace =
        ((raw.drop first_brace).take (e + 1 - first_brace)).count rbrace then
      loads ((raw.drop first_brace).take (e + 1 - first_brace))
    else none
  else none

/-- Attempt 4 (lines 134-144): from the first opening brace, scan indices
`first_brace+1` up to (exclusive) `min (length raw) (first_brace+20000)`,
returning the first successful candidate parse. -/
def attempt4 {J : Type} (loads : List Char → Option J) (raw : List Char) : Option J :=
  match findCharIdx lbrace raw with
  | some first_brace =>
    (List.range' (first_brace + 1)
        (min raw.length (first_brace + 20000) - (first_brace + 1))).findSome?
      (scanStep loads raw first_brace)
  | none => none

/-- `BlogGenerator.parse_json_response` (lines 70-149), parameterized by
the strict parser `loads` (`json.loads`, returning `none` on failure as
the source's `try_loads` helper does).  The error payload models the
`ParseError` diagnostics: the source logs the first 2000 characters of
`raw` (line 148) while raising. -/
def parse_json_response {J : Type} (loads : List Char → Option J)
    (response : List Char) : Except (List Char) J :=
  let raw := fenceStripped response
  match loads raw with
  | some d => .ok d
  | none =>
    match attempt2 loads raw with
    | some d => .ok d
    | none =>
      match loads (attempt3text raw) with
      | some d => .ok d
      | none =>
        match attempt4 loads raw with
        | some d => .ok d
        | none => .error (raw.take 2000)

/-! ### A small executable strict parser used to instantiate `loads`

`json.loads` is external to the repository; the cascade above is
parameterized by it.  For concrete witnesses we use `miniLoads`, a strict
parser for flat objects of string keys and string values.  On that
fragment it agrees with a standard strict grammar: double-quoted strings
only, no escapes, raw control characters rejected inside strings, no
trailing commas, only structural whitespace, whole input consumed. -/

/-- Object values recognised by `miniLoads`: an association list of
string keys to string values, in document order. -/
def MiniJson : Type := List (List Char × List Char)

instance : DecidableEq MiniJson := by
  unfold MiniJson
  infer_instance

/-- Structural whitespace of the strict grammar. -/
def jsonWs (c : Char) : Bool :=
  c == ' ' || c == Char.ofNat 9 || c == nlChar || c == Char.ofNat 13

/-- Parse the body of a double-quoted string after the opening quote:
returns the contents and the rest after the closing quote.  Escapes and
raw control characters are rejected. -/
def parseStringBody : List Char → Option (List Char × List Char)
  | [] => none
  | c :: rest =>
    if c = dquote then some ([], rest)
    else if c = bslash ∨ c.toNat < 32 then none
    else
      match parseStringBody rest with
      | some (s, r) => some (c :: s, r)
      | none => none

/-- Parse a double-quoted string literal at the start of the input. -/
def parseStringLit : List Char → Option (List Char × List Char)
  | [] => none
  | c :: rest => if c = dquote then parseStringBody rest else none

/-- Parse one `"key" : "value"` pair. -/
def parsePair (s : List Char) : Option ((List Char × List Char) × List Char) :=
  match parseStringLit s with
  | some (k, r1) =>
    match r1.dropWhile jsonWs with
    | c :: r3 =>
      if c = colonChar then
        match parseStringLit (r3.dropWhile jsonWs) with
        | some (v, r4) => some ((k, v), r4)
        | none => none
      else none
    | [] => none
  | none => none

/-- Parse the `, "key" : "value"` continuations after the first pair; the
returned rest has structural whitespace already dropped. -/
def parseMembersTail : Nat → List Char → Option (MiniJson × List Char)
  | 0, _ => none
  | fuel + 1, s =>
    match s.dropWhile jsonWs with
    | c :: r2 =>
      if c = commaChar then
        match parsePair (r2.dropWhile jsonWs) with
        | some (p, r3) =>
          match parseMembersTail fuel r3 with
          | some (ps, r4) => some (p :: ps, r4)
          | none => none
        | none => none
      else some ([], c :: r2)
    | [] => some ([], [])

/-- Parse one object, returning the unconsumed rest. -/
def parseObj (s : List Char) : Option (MiniJson × List Char) :=
  match s.dropWhile jsonWs with
  | c :: r2 =>
    if c = lbrace then
      match r2.dropWhile jsonWs with
      | d :: r4 =>
        if d = rbrace then some ([], r4)
        else
          match parsePair (r2.dropWhile jsonWs) with
          | some (p, r5) =>
            match parseMembersTail r5.length r5 with
            | some (ps, r6) =>
              match r6 with
              | e :: r7 => if e = rbrace then some (p :: ps, r7) else none
              | [] => none
            | none => none
          | none => none
      | [] => none
    else none
  | [] => none

/-- The concrete strict parser: one object and nothing but trailing
structural whitespace. -/
def miniLoads (s : List Char) : Option MiniJson :=
  match parseObj s with
  | some (o, r) => if r.dropWhile jsonWs = [] then some o else none
  | none => none

/-! ### `BlogGenerator.generate` / `_reformat_to_json` (blog_generator.py lines 151-211)

The provider is a parameter `invoke`, indexed by the number of logical
provider invocations already made in this call (`invoke 0` is the initial
`_call_gemini prompt`, `invoke 1` the repair call), returning either the
generated text or the provider failure that `_call_gemini` re-raises after
its retries.  `parse` is `parse_json_response` at the chosen `loads`. -/

/-- The repair request built by `_reformat_to_json` (lines 157-171): the
fixed instruction text and schema, with the previous malformed output
appended verbatim. -/
def reformat_prompt (raw_response : List Char) : List Char :=
  ("The previous output was not valid JSON.\n" ++
    "Below is the original output. Convert it into a single, valid JSON object that matches this schema:\n" ++
    "\x7b\n" ++
    "  \"title\": string,\n" ++
    "  \"meta_description\": string,\n" ++
    "  \"introduction\": string,\n" ++
    "  \"sections\": [ \x7b \"heading\": string, \"content\": string \x7d ],\n" ++
    "  \"conclusion\": string,\n" ++
    "  \"cta\": string,\n" ++
    "  \"tags\": [string]\n" ++
    "\x7d\n" ++
    "Return ONLY the valid JSON object, with straight quotes, no trailing commas, and no additional text.\n\n" ++
    "ORIGINAL OUTPUT:\n").toList ++ raw_response

/-- Outcome of one `BlogGenerator.generate` call: success, a provider
failure propagated from `_call_gemini`, or a parse failure propagated
from `parse_json_response`. -/
inductive GenOutcome (E J : Type) where
  | ok : J → GenOutcome E J
  | providerError : E → GenOutcome E J
  | parseError : List Char → GenOutcome E J

/-- `BlogGenerator.generate` (lines 180-211), paired with the number of
logical provider invocations it made.  The source calls `_call_gemini`
outside the inner `try`, so a provider failure there propagates; only a
parse failure (`ValueError`) triggers the single `_reformat_to_json`
repair cycle, whose own provider failure propagates and whose reparse
failure also propagates — there is no third invocation. -/
def generate {E J : Type} (invoke : Nat → List Char → Except E (List Char))
    (parse : List Char → Except (List Char) J) (prompt : List Char) :
    GenOutcome E J × Nat :=
  match invoke 0 prompt with
  | .error e => (.providerError e, 1)
  | .ok response =>
    match parse response with
    | .ok blog_data => (.ok blog_data, 1)
    | .error _ =>
      match invoke 1 (reformat_prompt response) with
      | .error e => (.providerError e, 2)
      | .ok repaired =>
        match parse repaired with
        | .ok blog_data => (.ok blog_data, 2)
        | .error diag => (.parseError diag, 2)

/-! ### `BlogGenerator._call_gemini` retry policy (blog_generator.py lines 31-68)

The tenacity decorator `retry(stop=stop_after_attempt(3),
wait=wait_exponential(multiplier=1, min=2, max=10), reraise=True)` is
embedded with its documented semantics: attempts are numbered from 1; a
failed attempt `k` that is not the last is followed by a delay
`wait_exponential` of `k`; after the final allowed attempt the last
failure is re-raised. -/

/-- tenacity `wait_exponential(multiplier, min, max)` at base 2: the raw
exponential `multiplier * 2 ^ attempt_number` clamped into `[min, max]`. -/
def wait_exponential (multiplier mn mx attempt_number : Nat) : Nat :=
  max (max 0 mn) (min (multiplier * 2 ^ attempt_number) mx)

/-- Execute the retried call: `retriesLeft` further attempts are allowed
after the current one, `n` is the current 1-based attempt number.
Returns the final result, the number of the last attempt made, and the
inter-attempt delays in order. -/
def retryExec {E A : Type} (call : Nat → Except E A) :
    Nat → Nat → Except E A × Nat × List Nat
  | 0, n => (call n, n, [])
  | left + 1, n =>
    match call n with
    | .ok a => (.ok a, n, [])
    | .error _ =>
      let r := retryExec call left (n + 1)
      (r.1, r.2.1, wait_exponential 1 2 10 n :: r.2.2)

/-- `_call_gemini` under its decorator: at most 3 attempts
(`stop_after_attempt(3)`), starting at attempt number 1. -/
def call_gemini {E A : Type} (call : Nat → Except E A) :
    Except E A × Nat × List Nat :=
  retryExec call 2 1

/-! ### `ContentExtractor.extract` (content_extractor.py lines 143-174)

`np` and `bs` are what `extract_with_newspaper` and
`extract_with_beautifulsoup` would yield for the URL (each `none` on any
internal failure, per their own exception handlers). -/

/-- The extracted-content dictionary built by both extraction strategies
(content_extractor.py lines 41-49 and 123-131). -/
structure Content where
  title : List Char
  text : List Char
  meta_description : List Char
  authors : List (List Char)
  publish_date : Option (List Char)
  top_image : List Char
  meta_keywords : List (List Char)

/-- The source's falsiness test `not content or not content.get('text')`:
no dictionary, or an empty text field. -/
def contentEmpty : Option Content → Bool
  | none => true
  | some c => c.text.isEmpty

/-- The `ValueError` message raised when both strategies fail. -/
def extractErrMsg : List Char := "Failed to extract content from URL".toList

/-- `ContentExtractor.extract` (lines 143-174): newspaper result first,
BeautifulSoup exactly when that is missing or has empty text, error when
the survivor is still missing or empty, then prefix truncation to
`max_length` only when the text strictly exceeds it. -/
def extract (np bs : Option Content) (max_length : Nat) :
    Except (List Char) Content :=
  let content := if contentEmpty np then bs else np
  match content with
  | none => .error extractErrMsg
  | some c =>
    if c.text.isEmpty then .error extractErrMsg
    else if max_length < c.text.length then
      .ok { c with text := c.text.take max_length }
    else .ok c

/-- `Settings.max_content_length` default (config.py line 20). -/
def max_content_length : Nat := 10000

/-! ### `URLValidator.validate_url_format` (url_validator.py lines 24-59) -/

/-- Characters permitted in a URL scheme by `urllib.parse`. -/
def isSchemeChar (c : Char) : Bool :=
  c.isAlphanum || c == '+' || c == '-' || c == '.'

/-- The scheme and network-location components `urllib.parse.urlparse`
yields for an absolute URL: the (lowercased) text before the first colon
when it is a well-formed scheme, and, when `//` follows the colon, the
text from there to the first of `/`, `?`, `#`. -/
def urlparse_scheme_netloc (url : List Char) : List Char × List Char :=
  match splitFirst [colonChar] url with
  | some (pre, post) =>
    if pre ≠ [] ∧ pre.all isSchemeChar ∧ (pre.head?.map Char.isAlpha).getD false then
      if isStartOf ['/', '/'] post then
        (toLowerL pre,
          (post.drop 2).takeWhile fun c => !(c == '/' || c == '?' || c == '#'))
      else (toLowerL pre, [])
    else ([], [])
  | none => ([], [])

/-- `self.excluded_domains` (url_validator.py line 22). -/
def excluded_domains : List (List Char) :=
  ["localhost".toList, "127.0.0.1".toList, "0.0.0.0".toList]

def urlFormatMsgEmpty : List Char := "URL must be a non-empty string".toList

def urlFormatMsgScheme : List Char := "URL must start with http:// or https://".toList

def urlFormatMsgDomain : List Char := "Invalid URL: missing domain".toList

def urlFormatMsgLocal : List Char := "Local URLs are not supported".toList

/-- `URLValidator.validate_url_format` (lines 24-59): empty check, scheme
check, domain-presence check, then rejection when any excluded domain is
a substring of the lowercased network location. -/
def validate_url_format (url : List Char) : Bool × List Char :=
  if url = [] then (false, urlFormatMsgEmpty)
  else if ¬((urlparse_scheme_netloc url).1 = "http".toList ∨
      (urlparse_scheme_netloc url).1 = "https".toList) then
    (false, urlFormatMsgScheme)
  else if (urlparse_scheme_netloc url).2 = [] then (false, urlFormatMsgDomain)
  else if excluded_domains.any
      (fun d => containsSeq d (toLowerL (urlparse_scheme_netloc url).2)) then
    (false, urlFormatMsgLocal)
  else (true, [])

/-- `URLValidator.validate` (lines 101-122): format validation first;
the accessibility probe (a network effect, here the parameter `access`)
runs only when the format check passed. -/
def validate (access : List Char → Bool × List Char × Nat) (url : List Char) :
    Bool × List Char :=
  let fmt := validate_url_format url
  if fmt.1 = false then (false, fmt.2)
  else
    let acc := access url
    if acc.1 = false then (false, acc.2.1)
    else (true, [])

/-! ## Claim C1 -/

/-- C1: `generate` issues at most two logical provider invocations.  A
provider failure on the initial invocation propagates immediately with no
repair cycle (one invocation); a first-parse success returns after one
invocation; exactly when the first parse fails, one repair invocation is
made, whose provider failure propagates (two invocations) and whose
output is parsed once more, a second parse failure propagating with no
third invocation.  The final conjunct shows the outcome depends only on
the first two invocations. -/
theorem C1_generate_invocation_protocol {E J : Type}
    (invoke : Nat → List Char → Except E (List Char))
    (parse : List Char → Except (List Char) J) (prompt : List Char) :
    (generate invoke parse prompt).2 ≤ 2 ∧
    (∀ e, invoke 0 prompt = .error e →
      generate invoke parse prompt = (.providerError e, 1)) ∧
    (∀ raw d, invoke 0 prompt = .ok raw → parse raw = .ok d →
      generate invoke parse prompt = (.ok d, 1)) ∧
    (∀ raw diag e, invoke 0 prompt = .ok raw → parse raw = .error diag →
      invoke 1 (reformat_prompt raw) = .error e →
      generate invoke parse prompt = (.providerError e, 2)) ∧
    (∀ raw diag rep d, invoke 0 prompt = .ok raw → parse raw = .error diag →
      invoke 1 (reformat_prompt raw) = .ok rep → parse rep = .ok d →
      generate invoke parse prompt = (.ok d, 2)) ∧
    (∀ raw diag rep diag2, invoke 0 prompt = .ok raw → parse raw = .error diag →
      invoke 1 (reformat_prompt raw) = .ok rep → parse rep = .error diag2 →
      generate invoke parse prompt = (.parseError diag2, 2)) ∧
    (∀ invoke2 : Nat → List Char → Except E (List Char),
      (∀ p, invoke2 0 p = invoke 0 p) → (∀ p, invoke2 1 p = invoke 1 p) →
      generate invoke2 parse prompt = generate invoke parse prompt) := by
  refine ⟨?_, ?_, ?_, ?_, ?_, ?_, ?_⟩
  · unfold generate
    cases h0 : invoke 0 prompt with
    | error e => simp
    | ok raw =>
      cases h1 : parse raw with
      | ok d => simp [h1]
      | error diag =>
        cases h2 : invoke 1 (reformat_prompt raw) with
        | error e => simp [h1, h2]
        | ok rep => cases h3 : parse rep <;> simp [h1, h2, h3]
  · intro e h0
    simp [generate, h0]
  · intro raw d h0 h1
    simp [generate, h0, h1]
  · intro raw diag e h0 h1 h2
    simp [generate, h0, h1, h2]
  · intro raw diag rep d h0 h1 h2 h3
    simp [generate, h0, h1, h2, h3]
  · intro raw diag rep diag2 h0 h1 h2 h3
    simp [generate, h0, h1, h2, h3]
  · intro invoke2 he0 he1
    simp only [generate, he0, he1]

/-- C1 witness: a provider that answers every invocation with text the
parser rejects drives `generate` through the full two-invocation repair
cycle, surfacing the second parse failure. -/
theorem C1_witness :
    generate (fun _ _ => (Except.ok ("x".toList) : Except Unit (List Char)))
      (fun _ => (Except.error [] : Except (List Char) Nat)) [] =
      (.parseError [], 2) :=
  (C1_generate_invocation_protocol
    (fun _ _ => (Except.ok ("x".toList) : Except Unit (List Char)))
    (fun _ => (Except.error [] : Except (List Char) Nat)) []).2.2.2.2.2.1
    ("x".toList) [] ("x".toList) [] rfl rfl rfl rfl

/-! ## Claim C2 -/

/-- C2: against an underlying call that fails on every attempt,
`call_gemini` makes exactly 3 attempts; the two inter-attempt delays are
the clamped base-2 exponentials `wait_exponential 1 2 10` of the failed
attempt numbers, concretely `[2, 4]`, hence non-decreasing and within
`[2, 10]`; and the failure of the third attempt is re-raised, never
swallowed. -/
theorem C2_retry_exhaustion {E A : Type} (call : Nat → Except E A)
    (f : Nat → E) (hfail : ∀ n, call n = .error (f n)) :
    (call_gemini call).1 = .error (f 3) ∧
    (call_gemini call).2.1 = 3 ∧
    (call_gemini call).2.2 =
      [wait_exponential 1 2 10 1, wait_exponential 1 2 10 2] ∧
    (call_gemini call).2.2 = [2, 4] ∧
    List.Chain' (· ≤ ·) (call_gemini call).2.2 ∧
    (∀ d ∈ (call_gemini call).2.2, 2 ≤ d ∧ d ≤ 10) := by
  have hcg : call_gemini call = (.error (f 3), 3, [2, 4]) := by
    simp [call_gemini, retryExec, hfail, wait_exponential]
  rw [hcg]
  refine ⟨rfl, rfl, ?_, rfl, ?_, ?_⟩
  · show ([2, 4] : List Nat) =
      [wait_exponential 1 2 10 1, wait_exponential 1 2 10 2]
    decide
  · show List.Chain' (· ≤ ·) ([2, 4] : List Nat)
    simp
  · show ∀ d ∈ ([2, 4] : List Nat), 2 ≤ d ∧ d ≤ 10
    decide

/-- C2 witness: the attempt-numbered failing call exhausts the policy,
surfacing the third failure after delays 2 and 4. -/
theorem C2_witness :
    (call_gemini (fun n => (Except.error n : Except Nat Unit))).1 =
        .error 3 ∧
      (call_gemini (fun n => (Except.error n : Except Nat Unit))).2.1 = 3 ∧
      (call_gemini (fun n => (Except.error n : Except Nat Unit))).2.2 = [2, 4] := by
  have h := C2_retry_exhaustion (fun n => (Except.error n : Except Nat Unit))
    (fun n => n) (fun _ => rfl)
  exact ⟨h.1, h.2.1, h.2.2.2.1⟩

/-! ## Claim C8 -/

/-- C8: `extract` consults the primary (newspaper) result first and the
secondary (BeautifulSoup) result exactly when the primary is missing or
has empty text — when the primary has non-empty text the outcome is
independent of the secondary, and when it is missing or empty the outcome
is that of the secondary alone.  It fails if and only if neither strategy
yields non-empty text, and a strategy yielding a document with empty text
behaves identically to that strategy yielding nothing. -/
theorem C8_extract_fallback (np bs : Option Content) (mx : Nat) :
    ((∃ e, extract np bs mx = .error e) ↔
      contentEmpty np = true ∧ contentEmpty bs = true) ∧
    (contentEmpty np = false →
      ∀ bs2, extract np bs mx = extract np bs2 mx) ∧
    (contentEmpty np = true → extract np bs mx = extract none bs mx) ∧
    (∀ c : Content, c.text = [] → extract (some c) bs mx = extract none bs mx) := by
  refine ⟨?_, ?_, ?_, ?_⟩
  · constructor
    · rintro ⟨e, he⟩
      cases np with
      | none =>
        refine ⟨rfl, ?_⟩
        cases bs with
        | none => rfl
        | some c =>
          simp only [extract, contentEmpty, if_true] at he ⊢
          by_cases hc : c.text.isEmpty
          · exact hc
          · simp [hc] at he
            split at he <;> simp_all
      | some c =>
        by_cases hc : c.text.isEmpty
        · simp only [contentEmpty, hc, true_and]
          cases bs with
          | none => rfl
          | some c2 =>
            simp only [extract, contentEmpty, hc, if_true] at he ⊢
            by_cases hc2 : c2.text.isEmpty
            · exact hc2
            · simp [hc2] at he
              split at he <;> simp_all
        · exfalso
          simp only [extract, contentEmpty, hc, if_false] at he
          simp [hc] at he
          split at he <;> simp_all
    · rintro ⟨h1, h2⟩
      refine ⟨extractErrMsg, ?_⟩
      cases np with
      | none =>
        cases bs with
        | none => rfl
        | some c2 =>
          simp only [contentEmpty] at h2
          simp [extract, contentEmpty, h2]
      | some c =>
        simp only [contentEmpty] at h1
        cases bs with
        | none => simp [extract, contentEmpty, h1]
        | some c2 =>
          simp only [contentEmpty] at h2
          simp [extract, contentEmpty, h1, h2]
  · intro h bs2
    simp [extract, h]
  · intro h
    unfold extract
    rw [h]
    simp [contentEmpty]
  · intro c hc
    unfold extract
    simp [contentEmpty, hc]

/-- C8 witness: a primary document with empty text defers to the
secondary exactly as a missing primary does. -/
theorem C8_witness :
    extract
        (some { title := [], text := [], meta_description := [], authors := [],
                publish_date := none, top_image := [], meta_keywords := [] })
        none max_content_length =
      extract none none max_content_length :=
  (C8_extract_fallback
    (some { title := [], text := [], meta_description := [], authors := [],
            publish_date := none, top_image := [], meta_keywords := [] })
    none max_content_length).2.2.2
    { title := [], text := [], meta_description := [], authors := [],
      publish_date := none, top_image := [], meta_keywords := [] } rfl

/-! ## Claim C9 -/

/-- C9: when the surviving extraction's text strictly exceeds the
configured maximum, `extract` succeeds with exactly the length-`mx`
prefix of that text (truncation, never rejection), and text at or below
the maximum is returned unchanged. -/
theorem C9_truncation (np bs : Option Content) (mx : Nat) (c : Content)
    (hc : (if contentEmpty np then bs else np) = some c)
    (hne : c.text ≠ []) :
    (mx < c.text.length →
      extract np bs mx = .ok { c with text := c.text.take mx } ∧
        (c.text.take mx).length = mx) ∧
    (c.text.length ≤ mx → extract np bs mx = .ok c) := by
  have hemp : c.text.isEmpty = false := by
    cases h : c.text with
    | nil => exact absurd h hne
    | cons a l => simp [h]
  constructor
  · intro hlt
    constructor
    · simp [extract, hc, hemp, hlt]
    · simp [List.length_take]
      omega
  · intro hle
    have : ¬ mx < c.text.length := by omega
    simp [extract, hc, hemp, this]

/-- A document whose body text is one character longer than the default
maximum, used to witness C9. -/
def c9doc : Content :=
  { title := [], text := List.replicate 10001 'a', meta_description := [],
    authors := [], publish_date := none, top_image := [], meta_keywords := [] }

/-- C9 witness: a 10001-character body against the configured default
maximum of 10000 comes back truncated to exactly 10000 characters. -/
theorem C9_witness :
    extract (some c9doc) none max_content_length =
      .ok { c9doc with text := c9doc.text.take max_content_length } ∧
    (c9doc.text.take max_content_length).length = max_content_length := by
  have hrep : List.replicate 10001 'a' = 'a' :: List.replicate 10000 'a' := by
    rw [show (10001 : Nat) = 10000 + 1 from rfl, List.replicate_succ]
  have hne : c9doc.text ≠ [] := by
    show List.replicate 10001 'a' ≠ []
    rw [hrep]
    exact List.cons_ne_nil _ _
  have hc : (if contentEmpty (some c9doc) then none else some c9doc) = some c9doc := by
    have hf : contentEmpty (some c9doc) = false := by
      show (List.replicate 10001 'a').isEmpty = false
      rw [hrep]
      rfl
    rw [hf]
    rfl
  have h := C9_truncation (some c9doc) none max_content_length c9doc hc hne
  have hlt : max_content_length < c9doc.text.length := by
    show max_content_length < (List.replicate 10001 'a').length
    rw [List.length_replicate]
    norm_num [max_content_length]
  exact h.1 hlt

/-! ## Claim C10 -/

/-- C10: any URL whose parsed network location contains one of the
excluded markers (`localhost`, `127.0.0.1`, `0.0.0.0`) as a
case-insensitive substring is rejected by `validate_url_format` with the
local-URL error — regardless of whether the host is actually local — and
full validation rejects it identically for every accessibility oracle,
i.e. before any accessibility check. -/
theorem C10_local_url_rejection (url : List Char)
    (hurl : url ≠ [])
    (hscheme : (urlparse_scheme_netloc url).1 = "http".toList ∨
      (urlparse_scheme_netloc url).1 = "https".toList)
    (hex : (excluded_domains.any fun d =>
      containsSeq d (toLowerL (urlparse_scheme_netloc url).2)) = true) :
    validate_url_format url = (false, urlFormatMsgLocal) ∧
    ∀ access, validate access url = (false, urlFormatMsgLocal) := by
  have hn : (urlparse_scheme_netloc url).2 ≠ [] := by
    intro hnil
    rw [hnil] at hex
    revert hex
    decide
  have hfmt : validate_url_format url = (false, urlFormatMsgLocal) := by
    unfold validate_url_format
    rw [if_neg hurl, if_neg (not_not_intro hscheme), if_neg hn, if_pos hex]
  exact ⟨hfmt, fun access => by simp [validate, hfmt]⟩

/-- C10 witness: the remote hosts `notlocalhost.example.com` and
`cdn-0.0.0.0-mirror.example.com` are both rejected as local, whatever
the accessibility probe would have answered. -/
theorem C10_witness :
    validate (fun _ => (true, [], 200)) ("http://notlocalhost.example.com/a".toList) =
      (false, urlFormatMsgLocal) ∧
    validate (fun _ => (true, [], 200)) ("https://cdn-0.0.0.0-mirror.example.com/".toList) =
      (false, urlFormatMsgLocal) :=
  ⟨(C10_local_url_rejection ("http://notlocalhost.example.com/a".toList)
      (by decide) (Or.inl (by decide)) (by decide)).2 _,
   (C10_local_url_rejection ("https://cdn-0.0.0.0-mirror.example.com/".toList)
      (by decide) (Or.inr (by decide)) (by decide)).2 _⟩

/-! ## Claim C3 -/

/-- C3 (amended): when all four recovery attempts fail, the raised error
carries the first 2000 characters of the fence-stripped,
whitespace-stripped text `raw` — not of the original input. -/
theorem C3_amended_diag {J : Type} (loads : List Char → Option J)
    (response : List Char)
    (h1 : loads (fenceStripped response) = none)
    (h2 : attempt2 loads (fenceStripped response) = none)
    (h3 : loads (attempt3text (fenceStripped response)) = none)
    (h4 : attempt4 loads (fenceStripped response) = none) :
    parse_json_response loads response =
      .error ((fenceStripped response).take 2000) := by
  simp [parse_json_response, h1, h2, h3, h4]

/-- C3 witness: brace-free text with leading whitespace fails every
strategy and surfaces the stripped text as diagnostics. -/
theorem C3_witness :
    parse_json_response miniLoads ("   notjson".toList) =
      .error ("notjson".toList) :=
  (C3_amended_diag miniLoads ("   notjson".toList) rfl rfl rfl rfl).trans rfl

/-- C3 counterexample: on the input made of three spaces followed by
`notjson`, the diagnostic payload is the stripped text `notjson`, which
differs from the first 2000 characters of the original input — refuting
the claim that the payload is taken from the text as received. -/
theorem C3_counterexample :
    parse_json_response miniLoads ("   notjson".toList) =
        .error ("notjson".toList) ∧
      ("notjson".toList : List Char) ≠ ("   notjson".toList).take 2000 :=
  ⟨rfl, by decide⟩

/-! ## Claim C4 -/

/-- Modelled from the spec's wording of strategy 3, for comparison with
the source's transformation: strip control characters EXCEPT newline. -/
def stripControlKeepNl (s : List Char) : List Char :=
  s.filter fun c => !((c.toNat < 32 && !(c == nlChar)) || c.toNat == 127)

/-- Modelled from the spec's wording of strategy 3, for comparison with
the source's transformation: remove a comma only when it IMMEDIATELY
precedes a closing brace or bracket. -/
def removeCommaBeforeClose : List Char → List Char
  | [] => []
  | c :: rest =>
    if c = commaChar ∧ (rest.head? = some rbrace ∨ rest.head? = some rbracketC) then
      removeCommaBeforeClose rest
    else c :: removeCommaBeforeClose rest

/-- Modelled from the spec's wording: the normalization the claim says
strategy 3 performs (typographic quotes straightened, control characters
except newline stripped, commas immediately before a closing delimiter
removed). -/
def specNormalize (s : List Char) : List Char :=
  removeCommaBeforeClose (stripControlKeepNl (mapSmartQuotes s))

/-- C4 counterexample: on the fence-free input
`{"a": "b<newline>c", }` the code's strategy 3 strips the newline and the
comma-space-brace, parsing successfully to a value whose field reads
`bc`; the claim's transformation preserves the newline and leaves the
comma (a space intervenes before the brace), and a strict parse of that
claimed normalization fails.  So strategy 3 is not the claimed
transformation: newlines are removed, and comma removal tolerates
interleaved whitespace. -/
theorem C4_counterexample :
    parse_json_response miniLoads ("\x7b\"a\": \"b\nc\", \x7d".toList) =
        .ok [("a".toList, "bc".toList)] ∧
      miniLoads (specNormalize (fenceStripped ("\x7b\"a\": \"b\nc\", \x7d".toList))) =
        none ∧
      attempt3text (fenceStripped ("\x7b\"a\": \"b\nc\", \x7d".toList)) ≠
        specNormalize (fenceStripped ("\x7b\"a\": \"b\nc\", \x7d".toList)) :=
  ⟨rfl, rfl, by decide⟩

/-- C4 (amended): strategy 3 transforms the fence-stripped text by
exactly the source's normalization — typographic quotes straightened,
ALL control characters (newline included) stripped, any comma followed by
optional whitespace and a closing brace/bracket removed — and strictly
parses the result; whenever the two earlier attempts fail and the strict
parse of that normalization yields `P`, the cascade returns `P`. -/
theorem C4_amended_strategy3 {J : Type} (loads : List Char → Option J)
    (response : List Char) (P : J)
    (h1 : loads (fenceStripped response) = none)
    (h2 : attempt2 loads (fenceStripped response) = none)
    (h3 : loads (attempt3text (fenceStripped response)) = some P) :
    parse_json_response loads response = .ok P ∧
    attempt3text (fenceStripped response) =
      removeTrailingCommas (stripControl (mapSmartQuotes (fenceStripped response))) :=
  ⟨by simp [parse_json_response, h1, h2, h3], rfl⟩

/-- C4 witness: a payload written with typographic quotes and one
trailing comma is recovered by strategy 3. -/
theorem C4_witness :
    parse_json_response miniLoads ("\x7b“a”: “b”,\x7d".toList) =
      .ok [("a".toList, "b".toList)] :=
  (C4_amended_strategy3 miniLoads ("\x7b“a”: “b”,\x7d".toList)
    [("a".toList, "b".toList)] rfl rfl rfl).1

/-! ## Claim C7 -/

/-- `findCharIdx` on a list whose head part avoids `t` locates the
occurrence right after that part. -/
theorem findCharIdx_append_not_mem (t : Char) (pre rest : List Char)
    (h : t ∉ pre) : findCharIdx t (pre ++ t :: rest) = some pre.length := by
  induction pre with
  | nil => simp [findCharIdx]
  | cons c l ih =>
    have hct : ¬ c = t := fun hc => h (hc ▸ List.mem_cons_self c l)
    have hl : t ∉ l := fun hm => h (List.mem_cons_of_mem _ hm)
    simp [findCharIdx, hct, ih hl]

/-- C7: when the fence-stripped text is brace-free prose around a single
outer-braced body, and the whole stripped text fails the strict parse,
attempt 2 isolates exactly the substring from the first opening brace to
the last closing brace; if the strict parse accepts that substring the
cascade returns its value. -/
theorem C7_substring_isolation {J : Type} (loads : List Char → Option J)
    (response pre mid post : List Char) (P : J)
    (hraw : fenceStripped response = pre ++ lbrace :: (mid ++ rbrace :: post))
    (hpre1 : lbrace ∉ pre) (_hpre2 : rbrace ∉ pre)
    (_hmid1 : lbrace ∉ mid) (_hmid2 : rbrace ∉ mid)
    (_hpost1 : lbrace ∉ post) (hpost2 : rbrace ∉ post)
    (h1 : loads (fenceStripped response) = none)
    (h2 : loads (lbrace :: (mid ++ [rbrace])) = some P) :
    parse_json_response loads response = .ok P := by
  have hfb : findCharIdx lbrace (pre ++ lbrace :: (mid ++ rbrace :: post)) =
      some pre.length := findCharIdx_append_not_mem lbrace pre _ hpre1
  have hrev : (pre ++ lbrace :: (mid ++ rbrace :: post)).reverse =
      post.reverse ++ rbrace :: (mid.reverse ++ lbrace :: pre.reverse) := by
    simp
  have hlast : findCharIdx rbrace
      (pre ++ lbrace :: (mid ++ rbrace :: post)).reverse = some post.length := by
    rw [hrev]
    have hnp : rbrace ∉ post.reverse := by simpa using hpost2
    simpa using
      findCharIdx_append_not_mem rbrace post.reverse
        (mid.reverse ++ lbrace :: pre.reverse) hnp
  have hrfind : rfindCharIdx rbrace (pre ++ lbrace :: (mid ++ rbrace :: post)) =
      some (pre.length + 1 + mid.length) := by
    unfold rfindCharIdx
    rw [hlast]
    have hlen : (pre ++ lbrace :: (mid ++ rbrace :: post)).length - 1 - post.length =
        pre.length + 1 + mid.length := by
      simp
      omega
    show some ((pre ++ lbrace :: (mid ++ rbrace :: post)).length - 1 - post.length) =
      some (pre.length + 1 + mid.length)
    rw [hlen]
  have hslice : ((pre ++ lbrace :: (mid ++ rbrace :: post)).drop pre.length).take
      (pre.length + 1 + mid.length + 1 - pre.length) = lbrace :: (mid ++ [rbrace]) := by
    rw [List.drop_left]
    have harith : pre.length + 1 + mid.length + 1 - pre.length = mid.length + 2 := by
      omega
    rw [harith]
    have hre : lbrace :: (mid ++ rbrace :: post) =
        (lbrace :: (mid ++ [rbrace])) ++ post := by simp
    rw [hre]
    have hlen2 : (lbrace :: (mid ++ [rbrace])).length = mid.length + 2 := by
      simp
    rw [← hlen2, List.take_left]
  have hatt2 : attempt2 loads (pre ++ lbrace :: (mid ++ rbrace :: post)) = some P := by
    unfold attempt2
    rw [hfb, hrfind]
    show (if pre.length < pre.length + 1 + mid.length then
        loads (((pre ++ lbrace :: (mid ++ rbrace :: post)).drop pre.length).take
          (pre.length + 1 + mid.length + 1 - pre.length))
      else none) = some P
    rw [if_pos (by omega), hslice]
    exact h2
  have h1' : loads (pre ++ lbrace :: (mid ++ rbrace :: post)) = none := hraw ▸ h1
  simp [parse_json_response, hraw, h1', hatt2]

/-- C7 witness: brace-free prose around a single-object body is recovered
by substring isolation. -/
theorem C7_witness :
    parse_json_response miniLoads
        ("noise before \x7b\"a\": \"b\"\x7d and after".toList) =
      .ok [("a".toList, "b".toList)] :=
  C7_substring_isolation miniLoads
    ("noise before \x7b\"a\": \"b\"\x7d and after".toList)
    ("noise before ".toList) ("\"a\": \"b\"".toList) (" and after".toList)
    [("a".toList, "b".toList)]
    (by decide) (by decide) (by decide) (by decide) (by decide)
    (by decide) (by decide) rfl rfl

/-! ## Claim C5 -/

/-- `findSome?` yields nothing iff the function yields nothing on every
element. -/
theorem findSome?_eq_none_iff {α β : Type} (f : α → Option β) (l : List α) :
    l.findSome? f = none ↔ ∀ a ∈ l, f a = none := by
  induction l with
  | nil => simp
  | cons a l ih =>
    cases hfa : f a with
    | some b => simp [List.findSome?, hfa]
    | none => simp [List.findSome?, hfa, ih]

/-- A successful `findSome?` splits the list at the FIRST element the
function accepts: everything before it is rejected. -/
theorem findSome?_eq_some_split {α β : Type} (f : α → Option β) (l : List α)
    (b : β) (h : l.findSome? f = some b) :
    ∃ l1 a l2, l = l1 ++ a :: l2 ∧ (∀ x ∈ l1, f x = none) ∧ f a = some b := by
  induction l with
  | nil => simp [List.findSome?] at h
  | cons a l ih =>
    cases hfa : f a with
    | some b2 =>
      have hb : some b2 = some b := by
        rw [← h]
        simp [List.findSome?, hfa]
      exact ⟨[], a, l, by simp, by simp, by rw [hfa, hb]⟩
    | none =>
      have h2 : l.findSome? f = some b := by
        rw [← h]
        simp [List.findSome?, hfa]
      obtain ⟨l1, x, l2, he, hn, hx⟩ := ih h2
      refine ⟨a :: l1, x, l2, by simp [he], ?_, hx⟩
      intro y hy
      rcases List.mem_cons.mp hy with hy | hy
      · rw [hy, hfa]
      · exact hn y hy

/-- `scanStep` yields nothing iff, whenever its index holds a closing
brace and the candidate is brace-balanced, the strict parse rejects the
candidate. -/
theorem scanStep_eq_none_iff {J : Type} (loads : List Char → Option J)
    (raw : List Char) (fb e : Nat) :
    scanStep loads raw fb e = none ↔
      (raw.get? e = some rbrace →
        ((raw.drop fb).take (e + 1 - fb)).count lbrace =
          ((raw.drop fb).take (e + 1 - fb)).count rbrace →
        loads ((raw.drop fb).take (e + 1 - fb)) = none) := by
  unfold scanStep
  by_cases hg : raw.get? e = some rbrace
  · rw [if_pos hg]
    by_cases hb : ((raw.drop fb).take (e + 1 - fb)).count lbrace =
        ((raw.drop fb).take (e + 1 - fb)).count rbrace
    · rw [if_pos hb]
      exact ⟨fun h _ _ => h, fun h => h hg hb⟩
    · rw [if_neg hb]
      exact ⟨fun _ _ hb2 => absurd hb2 hb, fun _ => rfl⟩
  · rw [if_neg hg]
    exact ⟨fun _ hg2 => absurd hg2 hg, fun _ => rfl⟩

/-- C5: once the three earlier attempts have failed, the cascade's result
is exactly that of the bounded balanced-brace scan; the scan is the first
success of `scanStep` over the index window from one past the first
opening brace up to `min (length) (first_brace + 20000)` exclusive; it
fails iff the strict parse rejects the candidate at EVERY closing-brace
position in that window with balanced counts (so every such position —
including the text's last index when it lies in the window — is tried),
and on success the accepting index is the first in the window. -/
theorem C5_balanced_scan {J : Type} (loads : List Char → Option J)
    (response : List Char) (fb : Nat)
    (h1 : loads (fenceStripped response) = none)
    (h2 : attempt2 loads (fenceStripped response) = none)
    (h3 : loads (attempt3text (fenceStripped response)) = none)
    (hfb : findCharIdx lbrace (fenceStripped response) = some fb) :
    (parse_json_response loads response =
      match attempt4 loads (fenceStripped response) with
      | some d => .ok d
      | none => .error ((fenceStripped response).take 2000)) ∧
    (attempt4 loads (fenceStripped response) =
      (List.range' (fb + 1)
          (min (fenceStripped response).length (fb + 20000) - (fb + 1))).findSome?
        (scanStep loads (fenceStripped response) fb)) ∧
    (attempt4 loads (fenceStripped response) = none ↔
      ∀ e, fb + 1 ≤ e → e < min (fenceStripped response).length (fb + 20000) →
        (fenceStripped response).get? e = some rbrace →
        (((fenceStripped response).drop fb).take (e + 1 - fb)).count lbrace =
          (((fenceStripped response).drop fb).take (e + 1 - fb)).count rbrace →
        loads (((fenceStripped response).drop fb).take (e + 1 - fb)) = none) ∧
    (∀ d, attempt4 loads (fenceStripped response) = some d →
      ∃ l1 e l2,
        List.range' (fb + 1)
            (min (fenceStripped response).length (fb + 20000) - (fb + 1)) =
          l1 ++ e :: l2 ∧
        (∀ x ∈ l1, scanStep loads (fenceStripped response) fb x = none) ∧
        scanStep loads (fenceStripped response) fb e = some d) := by
  have hA4 : attempt4 loads (fenceStripped response) =
      (List.range' (fb + 1)
          (min (fenceStripped response).length (fb + 20000) - (fb + 1))).findSome?
        (scanStep loads (fenceStripped response) fb) := by
    simp [attempt4, hfb]
  refine ⟨?_, hA4, ?_, ?_⟩
  · cases h4 : attempt4 loads (fenceStripped response) with
    | some d => simp [parse_json_response, h1, h2, h3, h4]
    | none => simp [parse_json_response, h1, h2, h3, h4]
  · rw [hA4, findSome?_eq_none_iff]
    constructor
    · intro h e he1 he2 hg hb
      have hmem : e ∈ List.range' (fb + 1)
          (min (fenceStripped response).length (fb + 20000) - (fb + 1)) := by
        rw [List.mem_range'_1]
        omega
      have hs := h e hmem
      rw [scanStep_eq_none_iff] at hs
      exact hs hg hb
    · intro h x hx
      rw [List.mem_range'_1] at hx
      rw [scanStep_eq_none_iff]
      intro hg hb
      exact h x (by omega) (by omega) hg hb
  · intro d hd
    rw [hA4] at hd
    exact findSome?_eq_some_split _ _ _ hd

/-- C5 witness: an object followed by garbage ending in a stray closing
brace defeats attempts 1-3; the scan stops at the first balanced closing
brace and recovers the object. -/
theorem C5_witness :
    parse_json_response miniLoads ("\x7b\"a\": \"b\"\x7d x\x7d".toList) =
      .ok [("a".toList, "b".toList)] := by
  have h := C5_balanced_scan miniLoads ("\x7b\"a\": \"b\"\x7d x\x7d".toList) 0
    rfl rfl rfl rfl
  rw [h.1]
  rfl

/-! ## Claim C6 -/

theorem isStartOf_append_self (s r : List Char) : isStartOf s (s ++ r) = true := by
  induction s with
  | nil => rfl
  | cons a t ih => simp [isStartOf, ih]

theorem drop_length_append (s r : List Char) : (s ++ r).drop s.length = r :=
  List.drop_left s r

/-- `splitFirst` on a text that opens with the separator splits it off
immediately. -/
theorem splitFirst_append_self (sep rest : List Char) (h : sep ≠ []) :
    splitFirst sep (sep ++ rest) = some ([], rest) := by
  cases sep with
  | nil => exact absurd rfl h
  | cons a s =>
    show splitFirst (a :: s) (a :: (s ++ rest)) = some ([], rest)
    unfold splitFirst
    rw [if_pos (by simpa using isStartOf_append_self (a :: s) rest)]
    rw [show (a :: (s ++ rest)).drop (a :: s).length = ((a :: s) ++ rest).drop (a :: s).length from rfl]
    rw [drop_length_append]

/-- A separator made of backticks that does not start `l` still does not
start `l` once a newline-led tail is appended: the newline can never
continue a backtick run. -/
theorem isStartOf_bt_append (sep l : List Char) (hsep : ∀ c ∈ sep, c = btick)
    (h : isStartOf sep l = false) :
    isStartOf sep (l ++ nlChar :: fence3) = false := by
  induction sep generalizing l with
  | nil => simp [isStartOf] at h
  | cons a s ih =>
    have ha : a = btick := hsep a (List.mem_cons_self a s)
    cases l with
    | nil =>
      show isStartOf (a :: s) (nlChar :: fence3) = false
      unfold isStartOf
      rw [if_neg (by rw [ha]; decide)]
    | cons c l2 =>
      show isStartOf (a :: s) (c :: (l2 ++ nlChar :: fence3)) = false
      unfold isStartOf
      by_cases hac : a = c
      · rw [if_pos hac]
        have h2 : isStartOf s l2 = false := by
          unfold isStartOf at h
          rw [if_pos hac] at h
          exact h
        exact ih l2 (fun x hx => hsep x (List.mem_cons_of_mem _ hx)) h2
      · rw [if_neg hac]

/-- When the closing fence delimiter occurs nowhere in `l`, appending a
newline and the delimiter makes that the first occurrence, so the split
keeps everything through the newline as the block interior. -/
theorem splitFirst_fence_close (l : List Char)
    (h : splitFirst fence3 l = none) :
    splitFirst fence3 (l ++ nlChar :: fence3) = some (l ++ [nlChar], []) := by
  induction l with
  | nil =>
    show splitFirst fence3 (nlChar :: fence3) = some ([nlChar], [])
    decide
  | cons c l2 ih =>
    have hsplit : isStartOf fence3 (c :: l2) = false ∧
        splitFirst fence3 l2 = none := by
      by_cases hs : isStartOf fence3 (c :: l2) = true
      · exfalso
        unfold splitFirst at h
        rw [if_pos hs] at h
        simp at h
      · refine ⟨by simpa using hs, ?_⟩
        unfold splitFirst at h
        rw [if_neg hs] at h
        cases h2 : splitFirst fence3 l2 with
        | some pr =>
          rw [h2] at h
          cases pr
          simp at h
        | none => rfl
    have hso : isStartOf fence3 ((c :: l2) ++ nlChar :: fence3) = false :=
      isStartOf_bt_append fence3 (c :: l2) (by decide) hsplit.1
    show splitFirst fence3 (c :: (l2 ++ nlChar :: fence3)) = some (c :: (l2 ++ [nlChar]), [])
    unfold splitFirst
    rw [if_neg (by simpa using hso)]
    rw [ih hsplit.2]

theorem dropWhile_append_eq (p : Char → Bool) (l1 l2 : List Char) :
    (l1 ++ l2).dropWhile p =
      if l1.dropWhile p = [] then l2.dropWhile p else l1.dropWhile p ++ l2 := by
  induction l1 with
  | nil => simp
  | cons a l ih =>
    by_cases hp : p a
    · simp only [List.cons_append, List.dropWhile_cons, hp, if_true, ih]
    · simp [List.dropWhile_cons, hp]

theorem pyStrip_cons_nl (s : List Char) : pyStrip (nlChar :: s) = pyStrip s := by
  unfold pyStrip
  rw [List.dropWhile_cons, if_pos (by decide)]

theorem pyStrip_append_nl (s : List Char) : pyStrip (s ++ [nlChar]) = pyStrip s := by
  unfold pyStrip
  rw [dropWhile_append_eq]
  by_cases h : s.dropWhile isPySpace = []
  · rw [if_pos h, h]
    rfl
  · rw [if_neg h, List.reverse_append]
    show ((([nlChar].reverse ++ (s.dropWhile isPySpace).reverse)).dropWhile isPySpace).reverse = _
    rw [show [nlChar].reverse ++ (s.dropWhile isPySpace).reverse =
      nlChar :: (s.dropWhile isPySpace).reverse from by simp]
    rw [List.dropWhile_cons, if_pos (by decide)]

/-- Fence stripping of a payload wrapped in a labeled fenced block keeps
exactly the interior (the payload with its surrounding newlines), as long
as the payload itself contains no fence delimiter. -/
theorem stripFences_wrap (payload : List Char)
    (hfree : splitFirst fence3 payload = none) :
    stripFences (fenceJson ++ nlChar :: (payload ++ nlChar :: fence3)) =
      (nlChar :: payload) ++ [nlChar] := by
  have hfree2 : splitFirst fence3 (nlChar :: payload) = none := by
    unfold splitFirst
    rw [if_neg (by unfold fence3 isStartOf; rw [if_neg (by decide)]; simp)]
    rw [hfree]
  have h2 : splitFirst fence3 ((nlChar :: payload) ++ nlChar :: fence3) =
      some ((nlChar :: payload) ++ [nlChar], []) :=
    splitFirst_fence_close (nlChar :: payload) hfree2
  unfold stripFences
  rw [splitFirst_append_self fenceJson (nlChar :: (payload ++ nlChar :: fence3))
    (by decide)]
  show (match splitFirst fence3 (nlChar :: (payload ++ nlChar :: fence3)) with
    | some (pre, _) => pre
    | none => nlChar :: (payload ++ nlChar :: fence3)) = (nlChar :: payload) ++ [nlChar]
  rw [show nlChar :: (payload ++ nlChar :: fence3) =
    (nlChar :: payload) ++ nlChar :: fence3 from by simp]
  rw [h2]

/-- C6 counterexample: the payload whose single field's value is three
backticks is accepted by the strict parser, yet wrapping it in a labeled
fenced block and parsing yields a `ParseError` (the backticks inside the
payload terminate the fence early), refuting the claim for arbitrary
valid payloads. -/
theorem C6_counterexample :
    miniLoads (pyStrip ("\x7b\"a\": \"```\"\x7d".toList)) =
        some [("a".toList, "```".toList)] ∧
      parse_json_response miniLoads
          (fenceJson ++ nlChar :: ("\x7b\"a\": \"```\"\x7d".toList ++ nlChar :: fence3)) =
        .error ("\x7b\"a\": \"".toList) :=
  ⟨rfl, rfl⟩

/-- C6 (amended): for every payload that contains no fence delimiter
sequence, wrapping it in a fenced block labeled as structured data and
parsing recovers exactly the strict parse of the (whitespace-stripped)
payload — strategy 1 succeeds and later strategies are unobservable. -/
theorem C6_amended_roundtrip {J : Type} (loads : List Char → Option J)
    (payload : List Char) (P : J)
    (hfree : splitFirst fence3 payload = none)
    (h : loads (pyStrip payload) = some P) :
    parse_json_response loads
        (fenceJson ++ nlChar :: (payload ++ nlChar :: fence3)) = .ok P := by
  have hfs : fenceStripped (fenceJson ++ nlChar :: (payload ++ nlChar :: fence3)) =
      pyStrip payload := by
    unfold fenceStripped
    rw [stripFences_wrap payload hfree]
    rw [show (nlChar :: payload) ++ [nlChar] = nlChar :: (payload ++ [nlChar]) from by simp]
    rw [pyStrip_cons_nl, pyStrip_append_nl]
  simp [parse_json_response, hfs, h]

/-- C6 witness: a fence-free payload round-trips through the labeled
fenced block via strategy 1. -/
theorem C6_witness :
    parse_json_response miniLoads
        (fenceJson ++ nlChar :: ("\x7b\"a\": \"b\"\x7d".toList ++ nlChar :: fence3)) =
      .ok [("a".toList, "b".toList)] :=
  C6_amended_roundtrip miniLoads ("\x7b\"a\": \"b\"\x7d".toList)
    [("a".toList, "b".toList)] rfl rfl

end BlogGen
